import Mathlib

/-!
# The AGS front-end `ags_minimize` (src/algs/ags/ags.cc)

A shallow embedding of the C-callable front-end to the AGS global-optimization
library, and the properties of its validation, configuration, status and
result-buffer behaviour.

Conventions of the embedding

* C `double` values are only copied by the front-end (never computed on), so a
  double is modelled by the rational number it denotes; the single literal of
  the source, `1e-64`, is written as it is in the source.
* Raw C arrays (`x`, `l`, `u`, `fc`, `Trial::y`, `Trial::g`) are functions from
  the index; `std::vector` values are lists.
* The user callbacks run in the caller's world `σ` (whatever the callbacks can
  observe or change, for instance an evaluation counter behind `data`): a
  callback maps a world to its value and the next world.  The front-end itself
  threads the world through the one place where callbacks can run, `Solve`.
* `ags::NLPSolver`, `ags::solverMaxDim` and `ags::solverMaxConstraints` live in
  `solver.hpp`, which is not part of the translated sources; the front-end is
  parametrised by them.  A `std::runtime_error` thrown by `Solve` is the
  `Except.error` result; other exceptions are not modelled.
* Every call the front-end makes on the solver object is recorded, in order
  and with its arguments or its returned value, in the `calls` field of the
  result.
-/

namespace ags

/-- C `double`, as the rational it denotes. -/
abbrev Double := ℚ

/-- The `nlopt_result` codes that `ags_minimize` returns (an enumeration of
the library's public header). -/
inductive nlopt_result where
  | NLOPT_FAILURE
  | NLOPT_INVALID_ARGS
  | NLOPT_SUCCESS
  | NLOPT_MAXEVAL_REACHED
  deriving DecidableEq, Repr

/-- The callback type `double f(unsigned n, const double* x, double* grad, void* data)`;
`grad` is `none` for a NULL pointer.  The callback runs in the world `σ`. -/
abbrev nlopt_func (Data σ : Type) :=
  Nat → (Nat → Double) → Option (Nat → Double) → Data → σ → Double × σ

/-- The fields of `nlopt_constraint` that matter to the front-end: the number
`m` of outputs the descriptor declares (an `unsigned`), its scalar callback
`f`, and its own user data `f_data` (which the front-end does not read). -/
structure nlopt_constraint (Data σ : Type) where
  m : Nat
  f : nlopt_func Data σ
  f_data : Data

/-- Modelled from the spec: `nlopt_stopping` is declared outside src/.  The
front-end reads its field `maxeval` only, which the spec calls a
maximum-evaluation count: a natural number. -/
structure nlopt_stopping where
  maxeval : Nat

/-- The solver's function handle `ags::NLPSolver::FuncPtr`
(`std::function<double(const double*)>`). -/
abbrev FuncPtr (σ : Type) := (Nat → Double) → σ → Double × σ

/-- The fields of `ags::SolverParameters` (declared in solver.hpp) that the
front-end assigns, lines 35-39. -/
structure SolverParameters where
  r : Double
  itersLimit : Nat
  eps : Double
  evolventDensity : Nat
  epsR : Double

/-- Modelled from the spec: `ags::Trial` is declared in solver.hpp, outside
src/.  Of the trial of §3 the front-end reads the point `y`, the function
values `g` (one per slot, the objective at slot `m`) and the index `idx`, a
number in `[0, m]`. -/
structure Trial where
  y : Nat → Double
  g : Nat → Double
  idx : Nat

/-- The process-wide settings of ags.cc, lines 8-11, with their initial values. -/
structure Globals where
  ags_r : Double := 3
  eps_res : Double := 0.001
  evolvent_density : Nat := 12
  ags_verbose : Int := 0

/-- The engine behind the front-end, taken as a parameter: the two limits of
`solver.hpp` and the methods of `ags::NLPSolver` that ags.cc calls, over a
solver-object state `S`.  `Solve` is the method that runs callbacks, so it
alone transforms the world; it returns the best trial or the message of a
`std::runtime_error`.  The two getters are read-only snapshots of the
per-slot statistics (§4.6). -/
structure NLPSolver (S σ : Type) where
  solverMaxDim : Nat
  solverMaxConstraints : Nat
  init : S
  SetParameters : SolverParameters → S → S
  SetProblem : List (FuncPtr σ) → List Double → List Double → S → S
  Solve : S → σ → Except String Trial × S × σ
  GetCalculationsStatistics : S → List Nat
  GetHolderConstantsEstimations : S → List Double

/-- One call made on the solver object: the setters with their arguments, the
other methods with the value they returned. -/
inductive SolverCall (σ : Type) where
  | SetParameters (params : SolverParameters)
  | SetProblem (functions : List (FuncPtr σ)) (lb ub : List Double)
  | Solve (result : Except String Trial)
  | GetCalculationsStatistics (result : List Nat)
  | GetHolderConstantsEstimations (result : List Double)

/-- One item inserted into an output stream with `<<`. -/
inductive Tok where
  | str (s : String)
  | index (i : Nat)
  | count (k : Nat)
  | dbl (d : Double)
  | endl

/-- What a call of `ags_minimize` leaves behind: the returned status, the
contents of the buffers `x` and `*minf`, the world after the call, the calls
made on the solver object, and what was written to `std::cerr` and `std::cout`. -/
structure Result (σ : Type) where
  ret : nlopt_result
  x : Nat → Double
  minf : Double
  world : σ
  calls : List (SolverCall σ)
  cerr : List Tok
  cout : List Tok

section Model

variable {Data σ S : Type}

/-- Modelled from the spec: `nlopt_count_constraints` is a utility of the
library defined outside src/; it is the sum of `c[i].m` over `i < p`,
accumulated in an `unsigned` (so modulo 2^32). -/
def nlopt_count_constraints (p : Nat) (c : Nat → nlopt_constraint Data σ) : Nat :=
  (List.range p).foldl (fun count i => (count + (c i).m) % 2 ^ 32) 0

/-- The vector `std::vector<double>(a, a + n)`, lines 23-24. -/
def vectorOf (a : Nat → Double) (n : Nat) : List Double :=
  (List.range n).map a

/-- The loop of lines 26-31 over the remaining indices: `none` is the early
`return NLOPT_INVALID_ARGS` of line 29, otherwise the wrapper of `fc[i].f` is
pushed at the back of `functions`. -/
def pushConstraints (fc : Nat → nlopt_constraint Data σ) (data : Data) (n : Nat) :
    List Nat → List (FuncPtr σ) → Option (List (FuncPtr σ))
  | [], functions => some functions
  | i :: rest, functions =>
    if (fc i).m ≠ 1 then none
    else pushConstraints fc data n rest (functions ++ [fun x => (fc i).f n x none data])

/-- The function list of lines 25-32: the loop over `i < m`, then the wrapper
of the objective pushed last. -/
def problemFunctions (n : Nat) (func : nlopt_func Data σ) (data : Data) (m : Nat)
    (fc : Nat → nlopt_constraint Data σ) : Option (List (FuncPtr σ)) :=
  match pushConstraints fc data n (List.range m) [] with
  | none => none
  | some functions => some (functions ++ [fun x => func n x none data])

/-- The parameter record of lines 34-39. -/
def solverParameters (G : Globals) (stop : nlopt_stopping) : SolverParameters :=
  { r := G.ags_r
    itersLimit := stop.maxeval
    eps := 1e-64
    evolventDensity := G.evolvent_density
    epsR := G.eps_res }

/-- The solver object after lines 41-43. -/
def preparedSolver (E : NLPSolver S σ) (params : SolverParameters)
    (functions : List (FuncPtr σ)) (lb ub : List Double) : S :=
  E.SetProblem functions lb ub (E.SetParameters params E.init)

/-- The text of lines 58-71, printed when `ags_verbose` is set.  The engine
reports one entry per function slot, so both vectors are non-empty; on
non-empty vectors `size() - 1`, `operator[]` and `back()` are the list
operations below (on an empty vector the C++ is undefined). -/
def statistics (calcCounters : List Nat) (holderConstEstimations : List Double)
    (optPoint : Trial) (m : Nat) : List Tok :=
  [Tok.str (String.mk (List.replicate 20 '-')), Tok.str "AGS statistics: ",
    Tok.str (String.mk (List.replicate 20 '-')), Tok.endl]
  ++ ((List.range (calcCounters.length - 1)).map fun i =>
      [Tok.str "Number of calculations of constraint # ", Tok.index i, Tok.str ": ",
        Tok.count (calcCounters.getD i 0), Tok.str "\n"]).flatten
  ++ [Tok.str "Number of calculations of objective: ",
      Tok.count (calcCounters.getLastD 0), Tok.str "\n"]
  ++ ((List.range (holderConstEstimations.length - 1)).map fun i =>
      [Tok.str "Estimation of Holder constant of function # ", Tok.index i, Tok.str ": ",
        Tok.dbl (holderConstEstimations.getD i 0), Tok.str "\n"]).flatten
  ++ [Tok.str "Estimation of Holder constant of objective: ",
      Tok.dbl (holderConstEstimations.getLastD 0), Tok.str "\n"]
  ++ (if optPoint.idx ≠ m then [Tok.str "Feasible point not found", Tok.str "\n"] else [])
  ++ [Tok.str (String.mk (List.replicate 40 '-')), Tok.endl]

/-- Lines 56-85 of `ags_minimize`, after `Solve` returned `optPoint`: print
the statistics when asked, copy the best point out when it is feasible, and
choose the status.  `setup` is the record of the calls made so far.  The read
`GetCalculationsStatistics()[0]` of line 82 is `getD 0 0`: the counter of
slot 0 (undefined in C++ on an empty vector, where the model reads 0). -/
def report (E : NLPSolver S σ) (G : Globals) (n m : Nat) (x : Nat → Double) (minf : Double)
    (params : SolverParameters) (setup : List (SolverCall σ)) (optPoint : Trial)
    (solver : S) (w1 : σ) : Result σ :=
  let calcCounters := E.GetCalculationsStatistics solver
  let holderConstEstimations := E.GetHolderConstantsEstimations solver
  let solved : List (SolverCall σ) := setup ++ [.Solve (.ok optPoint)]
  let cout : List Tok :=
    if G.ags_verbose ≠ 0 then statistics calcCounters holderConstEstimations optPoint m
    else []
  let reads : List (SolverCall σ) :=
    if G.ags_verbose ≠ 0 then
      [.GetCalculationsStatistics calcCounters,
        .GetHolderConstantsEstimations holderConstEstimations]
    else []
  if m = optPoint.idx then
    let x1 : Nat → Double := fun i => if i < n then optPoint.y i else x i
    let minf1 := optPoint.g optPoint.idx
    let last : List (SolverCall σ) :=
      [.GetCalculationsStatistics (E.GetCalculationsStatistics solver)]
    if (E.GetCalculationsStatistics solver).getD 0 0 ≥ params.itersLimit then
      { ret := .NLOPT_MAXEVAL_REACHED, x := x1, minf := minf1, world := w1,
        calls := solved ++ reads ++ last, cerr := [], cout := cout }
    else
      { ret := .NLOPT_SUCCESS, x := x1, minf := minf1, world := w1,
        calls := solved ++ reads ++ last, cerr := [], cout := cout }
  else
    { ret := .NLOPT_FAILURE, x := x, minf := minf, world := w1,
      calls := solved ++ reads, cerr := [], cout := cout }

/-- Lines 34-85 of `ags_minimize`: configure the solver, run `Solve` once
inside the `try` block, and report. -/
def runSolver (E : NLPSolver S σ) (G : Globals) (n m : Nat) (x : Nat → Double)
    (minf : Double) (stop : nlopt_stopping) (w : σ) (functions : List (FuncPtr σ))
    (lb ub : List Double) : Result σ :=
  let params := solverParameters G stop
  let solver := preparedSolver E params functions lb ub
  let setup : List (SolverCall σ) := [.SetParameters params, .SetProblem functions lb ub]
  match E.Solve solver w with
  | (.error exp, _, w1) =>
    { ret := .NLOPT_FAILURE, x := x, minf := minf, world := w1,
      calls := setup ++ [.Solve (.error exp)],
      cerr := [Tok.str "AGS internal error: ", Tok.str exp, Tok.endl], cout := [] }
  | (.ok optPoint, solver, w1) => report E G n m x minf params setup optPoint solver w1

/-- The early `return NLOPT_INVALID_ARGS` of lines 19, 21 and 29: nothing has
been called, printed or written. -/
def invalidArgs (x : Nat → Double) (minf : Double) (w : σ) : Result σ :=
  { ret := .NLOPT_INVALID_ARGS, x := x, minf := minf, world := w, calls := [],
    cerr := [], cout := [] }

/-- The function `ags_minimize` of ags.cc, lines 13-86, called in world `w`
with the process-wide settings `G`. -/
def ags_minimize (E : NLPSolver S σ) (G : Globals) (n : Nat) (func : nlopt_func Data σ)
    (data : Data) (m : Nat) (fc : Nat → nlopt_constraint Data σ) (x : Nat → Double)
    (minf : Double) (l u : Nat → Double) (stop : nlopt_stopping) (w : σ) : Result σ :=
  if n > E.solverMaxDim then invalidArgs x minf w
  else if m ≠ nlopt_count_constraints m fc ∨ m > E.solverMaxConstraints then
    invalidArgs x minf w
  else
    let lb := vectorOf l n
    let ub := vectorOf u n
    match problemFunctions n func data m fc with
    | none => invalidArgs x minf w
    | some functions => runSolver E G n m x minf stop w functions lb ub

/-- The request passes the three checks of lines 18-31. -/
def PassesValidation (E : NLPSolver S σ) (n m : Nat)
    (fc : Nat → nlopt_constraint Data σ) : Prop :=
  n ≤ E.solverMaxDim ∧ m = nlopt_count_constraints m fc ∧ m ≤ E.solverMaxConstraints ∧
    ∀ i, i < m → (fc i).m = 1

/-- The wrappers of the `m` constraint callbacks followed by the wrapper of the
objective, each passing `n`, the point, a NULL gradient and `data`. -/
def wrappedCallbacks (n : Nat) (func : nlopt_func Data σ) (data : Data) (m : Nat)
    (fc : Nat → nlopt_constraint Data σ) : List (FuncPtr σ) :=
  (List.range m).map (fun i x => (fc i).f n x none data) ++ [fun x => func n x none data]

/-- The arguments of the `SetParameters` calls in a call record. -/
def parametersSet : List (SolverCall σ) → List SolverParameters
  | [] => []
  | .SetParameters p :: cs => p :: parametersSet cs
  | _ :: cs => parametersSet cs

/-- The arguments of the `SetProblem` calls in a call record. -/
def problemsSet : List (SolverCall σ) → List (List (FuncPtr σ) × List Double × List Double)
  | [] => []
  | .SetProblem fs lb ub :: cs => (fs, lb, ub) :: problemsSet cs
  | _ :: cs => problemsSet cs

/-- The values returned by the `Solve` calls in a call record. -/
def solveResults : List (SolverCall σ) → List (Except String Trial)
  | [] => []
  | .Solve r :: cs => r :: solveResults cs
  | _ :: cs => solveResults cs

/-- The values returned by the `GetCalculationsStatistics` calls in a call record. -/
def countersRead : List (SolverCall σ) → List (List Nat)
  | [] => []
  | .GetCalculationsStatistics c :: cs => c :: countersRead cs
  | _ :: cs => countersRead cs

/-- The run of `Solve` inside a call that passed validation: on the solver
object configured by lines 34-43, in the caller's world. -/
def solveOutcome (E : NLPSolver S σ) (G : Globals) (n : Nat) (func : nlopt_func Data σ)
    (data : Data) (m : Nat) (fc : Nat → nlopt_constraint Data σ) (l u : Nat → Double)
    (stop : nlopt_stopping) (w : σ) : Except String Trial × S × σ :=
  E.Solve (preparedSolver E (solverParameters G stop) (wrappedCallbacks n func data m fc)
    (vectorOf l n) (vectorOf u n)) w

/-! ### A small engine for the scenarios

The real engine is outside the translated sources.  To run the front-end on
concrete problems, the following engine implements the evaluation contract of
the design (index scheme, per-slot counters, ordering of trials) over a fixed
sequence of trial points. -/

/-- Modelled from the spec: the state of a solve session (configuration,
problem, per-slot evaluation counters), reduced to what the probing engine
uses. -/
structure ProbeState (σ : Type) where
  itersLimit : Nat
  functions : List (FuncPtr σ)
  lb : List Double
  ub : List Double
  counters : List Nat

/-- Modelled from the spec: the index-scheme evaluator (§4.2).  The functions
are evaluated in order at `y`; evaluation stops at the first constraint whose
value is positive; the last function is the objective.  Returns the values of
the slots actually evaluated and the world after the evaluations. -/
def indexScheme : List (FuncPtr σ) → (Nat → Double) → σ → List Double × σ
  | [], _, w => ([], w)
  | [f], y, w => ([(f y w).1], (f y w).2)
  | f :: g :: fs, y, w =>
    if (f y w).1 > 0 then ([(f y w).1], (f y w).2)
    else ((f y w).1 :: (indexScheme (g :: fs) y (f y w).2).1,
      (indexScheme (g :: fs) y (f y w).2).2)

/-- Modelled from the spec: the trial (§3) made of a point and the values of
the slots evaluated there; `idx` is the last slot evaluated. -/
def trialOf (y : Nat → Double) (z : List Double) : Trial :=
  { y := y, g := fun i => z.getD i 0, idx := z.length - 1 }

/-- Modelled from the spec: the per-slot counters after one more evaluation of
each of the first `k` slots (§4.2). -/
def bump : Nat → List Nat → List Nat
  | 0, cs => cs
  | _, [] => []
  | k + 1, c :: cs => (c + 1) :: bump k cs

/-- Modelled from the spec: the ordering of trials (§4.2): a higher `idx` is
better; among equal `idx`, a smaller value at that slot is better. -/
def better (a b : Trial) : Bool :=
  decide (a.idx > b.idx) || (decide (a.idx = b.idx) && decide (a.g a.idx < b.g b.idx))

/-- Modelled from the spec: the trial points of the probing engine, the two
corners of the box that seed the search (§4.5), then the centre of the box. -/
def probes (lb ub : List Double) : List (Nat → Double) :=
  [fun i => lb.getD i 0, fun i => ub.getD i 0, fun i => (lb.getD i 0 + ub.getD i 0) / 2]

/-- Modelled from the spec: the search loop (§4.5) over the given trial points:
stop when the objective-slot counter has reached the iteration limit,
otherwise evaluate the next point by the index scheme, count the evaluations
and keep the better trial. -/
def search (functions : List (FuncPtr σ)) (limit : Nat) :
    List (Nat → Double) → List Nat → Option Trial → σ → List Nat × Option Trial × σ
  | [], cs, best, w => (cs, best, w)
  | y :: ys, cs, best, w =>
    if cs.getLastD 0 ≥ limit then (cs, best, w)
    else
      search functions limit ys (bump (indexScheme functions y w).1.length cs)
        (some (match best with
          | none => trialOf y (indexScheme functions y w).1
          | some b =>
            if better (trialOf y (indexScheme functions y w).1) b
            then trialOf y (indexScheme functions y w).1 else b))
        (indexScheme functions y w).2

/-- Modelled from the spec: an engine with the interface of `ags::NLPSolver`
that probes the corners and the centre of the box.  A session without any
trial is a hard error; the smoothness estimates stay at their positive
floor (§4.3). -/
def probeEngine (maxDim maxConstraints : Nat) : NLPSolver (ProbeState σ) σ :=
  { solverMaxDim := maxDim
    solverMaxConstraints := maxConstraints
    init := { itersLimit := 0, functions := [], lb := [], ub := [], counters := [] }
    SetParameters := fun p s => { s with itersLimit := p.itersLimit }
    SetProblem := fun fs lb ub s =>
      { s with functions := fs, lb := lb, ub := ub, counters := List.replicate fs.length 0 }
    Solve := fun s w =>
      match search s.functions s.itersLimit (probes s.lb s.ub) s.counters none w with
      | (cs, some b, w1) => (.ok b, { s with counters := cs }, w1)
      | (cs, none, w1) => (.error "no trial", { s with counters := cs }, w1)
    GetCalculationsStatistics := fun s => s.counters
    GetHolderConstantsEstimations := fun s => List.replicate s.counters.length 1 }

end Model

/-! ## Scenarios used to instantiate the theorems

The caller's world is a natural number counting callback invocations; the box
is `[0, 1]`, the buffers hold `x[0] = 7` and `*minf = 9` before the call. -/

/-- The objective `f(x) = x`, counting its invocations. -/
def countedObjective : nlopt_func Unit Nat := fun _ x _ _ w => (x 0, w + 1)

/-- The scalar constraint `0.5 - x <= 0`, counting its invocations. -/
def halfConstraint : nlopt_constraint Unit Nat :=
  { m := 1, f := fun _ x _ _ w => (1 / 2 - x 0, w + 1), f_data := () }

/-- The scalar constraint `x + 1 <= 0`, violated on the whole box. -/
def closedConstraint : nlopt_constraint Unit Nat :=
  { m := 1, f := fun _ x _ _ w => (x 0 + 1, w + 1), f_data := () }

/-- A descriptor block declaring two outputs. -/
def pairConstraint : nlopt_constraint Unit Nat :=
  { m := 2, f := fun _ x _ _ w => (1 / 2 - x 0, w + 1), f_data := () }

/-- The engine of the scenarios: the probing engine with both limits at 10. -/
def engine10 : NLPSolver (ProbeState Nat) Nat := probeEngine 10 10

/-- The settings of ags.cc as initialised at lines 8-11. -/
def initialSettings : Globals := {}

/-- The constrained scenario: minimise `x` on `[0, 1]` subject to
`0.5 - x <= 0` (`n = 1`, `m = 1`), with an evaluation limit of 3, under the
settings `G`.  The engine probes 0 (constraint violated), 1 and 0.5. -/
def constrainedRun (G : Globals) : Result Nat :=
  ags_minimize engine10 G 1 countedObjective () 1 (fun _ => halfConstraint)
    (fun _ => 7) 9 (fun _ => 0) (fun _ => 1) { maxeval := 3 } 0

/-- The infeasible scenario: the same problem with the constraint
`x + 1 <= 0`. -/
def infeasibleRun : Result Nat :=
  ags_minimize engine10 initialSettings 1 countedObjective () 1 (fun _ => closedConstraint)
    (fun _ => 7) 9 (fun _ => 0) (fun _ => 1) { maxeval := 3 } 0

/-! ## Auxiliary facts -/

section Lemmas

variable {Data σ S : Type}

theorem pushConstraints_all_one (fc : Nat → nlopt_constraint Data σ) (data : Data) (n : Nat) :
    ∀ (is : List Nat) (acc : List (FuncPtr σ)), (∀ i, i ∈ is → (fc i).m = 1) →
      pushConstraints fc data n is acc
        = some (acc ++ is.map (fun i x => (fc i).f n x none data)) := by
  intro is
  induction is with
  | nil => intro acc _; simp [pushConstraints]
  | cons i rest ih =>
    intro acc h
    have hi : (fc i).m = 1 := h i (by simp)
    have hr : ∀ j, j ∈ rest → (fc j).m = 1 := fun j hj => h j (by simp [hj])
    simp [pushConstraints, hi, ih _ hr]

theorem pushConstraints_some_one (fc : Nat → nlopt_constraint Data σ) (data : Data) (n : Nat) :
    ∀ (is : List Nat) (acc out : List (FuncPtr σ)),
      pushConstraints fc data n is acc = some out → ∀ i, i ∈ is → (fc i).m = 1 := by
  intro is
  induction is with
  | nil => intro acc out _ i hi; simp at hi
  | cons j rest ih =>
    intro acc out h i hi
    by_cases hj : (fc j).m = 1
    · simp [pushConstraints, hj] at h
      rcases List.mem_cons.mp hi with rfl | hmem
      · exact hj
      · exact ih _ _ h i hmem
    · simp [pushConstraints, hj] at h

theorem problemFunctions_of_all_one (n : Nat) (func : nlopt_func Data σ) (data : Data) (m : Nat)
    (fc : Nat → nlopt_constraint Data σ) (h : ∀ i, i < m → (fc i).m = 1) :
    problemFunctions n func data m fc = some (wrappedCallbacks n func data m fc) := by
  have h1 : ∀ i, i ∈ List.range m → (fc i).m = 1 := fun i hi => h i (List.mem_range.mp hi)
  simp [problemFunctions, wrappedCallbacks, pushConstraints_all_one fc data n _ [] h1]

theorem problemFunctions_none_of_not_one (n : Nat) (func : nlopt_func Data σ) (data : Data)
    (m : Nat) (fc : Nat → nlopt_constraint Data σ) (i : Nat) (hi : i < m) (h : (fc i).m ≠ 1) :
    problemFunctions n func data m fc = none := by
  unfold problemFunctions
  cases hp : pushConstraints fc data n (List.range m) [] with
  | none => rfl
  | some out =>
    exact absurd (pushConstraints_some_one fc data n _ _ _ hp i (List.mem_range.mpr hi)) h

theorem ags_minimize_of_valid (E : NLPSolver S σ) (G : Globals) (n : Nat)
    (func : nlopt_func Data σ) (data : Data) (m : Nat) (fc : Nat → nlopt_constraint Data σ)
    (x : Nat → Double) (minf : Double) (l u : Nat → Double) (stop : nlopt_stopping) (w : σ)
    (hv : PassesValidation E n m fc) :
    ags_minimize E G n func data m fc x minf l u stop w
      = runSolver E G n m x minf stop w (wrappedCallbacks n func data m fc)
          (vectorOf l n) (vectorOf u n) := by
  obtain ⟨hn, hc, hm, h1⟩ := hv
  have hn' : ¬ n > E.solverMaxDim := Nat.not_lt.mpr hn
  have hm' : ¬ m > E.solverMaxConstraints := Nat.not_lt.mpr hm
  unfold ags_minimize
  rw [if_neg hn', if_neg (by rintro (h | h); exact h hc; exact hm' h)]
  simp only [problemFunctions_of_all_one n func data m fc h1]

theorem ags_minimize_of_invalid (E : NLPSolver S σ) (G : Globals) (n : Nat)
    (func : nlopt_func Data σ) (data : Data) (m : Nat) (fc : Nat → nlopt_constraint Data σ)
    (x : Nat → Double) (minf : Double) (l u : Nat → Double) (stop : nlopt_stopping) (w : σ)
    (hv : ¬ PassesValidation E n m fc) :
    ags_minimize E G n func data m fc x minf l u stop w = invalidArgs x minf w := by
  unfold ags_minimize
  by_cases hn : n > E.solverMaxDim
  · rw [if_pos hn]
  · rw [if_neg hn]
    by_cases hc : m ≠ nlopt_count_constraints m fc ∨ m > E.solverMaxConstraints
    · rw [if_pos hc]
    · rw [if_neg hc]
      have hc1 : m = nlopt_count_constraints m fc := by
        by_contra h; exact hc (Or.inl h)
      have hc2 : m ≤ E.solverMaxConstraints := by
        by_contra h; exact hc (Or.inr (Nat.not_le.mp h))
      have hex : ∃ i, i < m ∧ (fc i).m ≠ 1 := by
        by_contra h
        apply hv
        refine ⟨Nat.not_lt.mp hn, hc1, hc2, ?_⟩
        intro i hi
        by_contra h1
        exact h ⟨i, hi, h1⟩
      obtain ⟨i, hi, h1⟩ := hex
      simp only [problemFunctions_none_of_not_one n func data m fc i hi h1]

theorem runSolver_error (E : NLPSolver S σ) (G : Globals) (n m : Nat)
    (x : Nat → Double) (minf : Double) (stop : nlopt_stopping) (w : σ)
    (functions : List (FuncPtr σ)) (lb ub : List Double) (exp : String) (s : S) (w1 : σ)
    (hS : E.Solve (preparedSolver E (solverParameters G stop) functions lb ub) w
      = (.error exp, s, w1)) :
    runSolver E G n m x minf stop w functions lb ub
      = { ret := .NLOPT_FAILURE, x := x, minf := minf, world := w1,
          calls := [.SetParameters (solverParameters G stop), .SetProblem functions lb ub,
            .Solve (.error exp)],
          cerr := [Tok.str "AGS internal error: ", Tok.str exp, Tok.endl], cout := [] } := by
  simp [runSolver, hS]

theorem runSolver_ok (E : NLPSolver S σ) (G : Globals) (n m : Nat)
    (x : Nat → Double) (minf : Double) (stop : nlopt_stopping) (w : σ)
    (functions : List (FuncPtr σ)) (lb ub : List Double) (t : Trial) (s : S) (w1 : σ)
    (hS : E.Solve (preparedSolver E (solverParameters G stop) functions lb ub) w
      = (.ok t, s, w1)) :
    runSolver E G n m x minf stop w functions lb ub
      = report E G n m x minf (solverParameters G stop)
          [.SetParameters (solverParameters G stop), .SetProblem functions lb ub] t s w1 := by
  simp [runSolver, hS]

theorem runSolver_ret_ne_invalid (E : NLPSolver S σ) (G : Globals) (n m : Nat)
    (x : Nat → Double) (minf : Double) (stop : nlopt_stopping) (w : σ)
    (functions : List (FuncPtr σ)) (lb ub : List Double) :
    (runSolver E G n m x minf stop w functions lb ub).ret ≠ .NLOPT_INVALID_ARGS := by
  rcases hS : E.Solve (preparedSolver E (solverParameters G stop) functions lb ub) w
    with ⟨res, s, w1⟩
  cases res with
  | error exp =>
    rw [runSolver_error E G n m x minf stop w functions lb ub exp s w1 hS]
    simp
  | ok t =>
    rw [runSolver_ok E G n m x minf stop w functions lb ub t s w1 hS]
    unfold report
    dsimp only
    by_cases hi : m = t.idx
    · rw [if_pos hi]
      by_cases hl : (E.GetCalculationsStatistics s).getD 0 0
          ≥ (solverParameters G stop).itersLimit
      · rw [if_pos hl]; simp
      · rw [if_neg hl]; simp
    · rw [if_neg hi]; simp

theorem parametersSet_append (a b : List (SolverCall σ)) :
    parametersSet (a ++ b) = parametersSet a ++ parametersSet b := by
  induction a with
  | nil => rfl
  | cons c cs ih => cases c <;> simp [parametersSet, ih]

theorem problemsSet_append (a b : List (SolverCall σ)) :
    problemsSet (a ++ b) = problemsSet a ++ problemsSet b := by
  induction a with
  | nil => rfl
  | cons c cs ih => cases c <;> simp [problemsSet, ih]

theorem solveResults_append (a b : List (SolverCall σ)) :
    solveResults (a ++ b) = solveResults a ++ solveResults b := by
  induction a with
  | nil => rfl
  | cons c cs ih => cases c <;> simp [solveResults, ih]

theorem report_projections (E : NLPSolver S σ) (G : Globals) (n m : Nat) (x : Nat → Double)
    (minf : Double) (params : SolverParameters) (setup : List (SolverCall σ)) (t : Trial)
    (s : S) (w1 : σ) :
    parametersSet (report E G n m x minf params setup t s w1).calls = parametersSet setup ∧
    problemsSet (report E G n m x minf params setup t s w1).calls = problemsSet setup ∧
    solveResults (report E G n m x minf params setup t s w1).calls
      = solveResults setup ++ [.ok t] := by
  unfold report
  dsimp only
  split_ifs <;>
    simp [parametersSet_append, problemsSet_append, solveResults_append,
      parametersSet, problemsSet, solveResults]

theorem report_feasible (E : NLPSolver S σ) (G : Globals) (n m : Nat) (x : Nat → Double)
    (minf : Double) (params : SolverParameters) (setup : List (SolverCall σ)) (t : Trial)
    (s : S) (w1 : σ) (hi : m = t.idx) :
    (report E G n m x minf params setup t s w1).ret
      = (if (E.GetCalculationsStatistics s).getD 0 0 ≥ params.itersLimit
          then .NLOPT_MAXEVAL_REACHED else .NLOPT_SUCCESS) ∧
    (report E G n m x minf params setup t s w1).x = (fun i => if i < n then t.y i else x i) ∧
    (report E G n m x minf params setup t s w1).minf = t.g t.idx ∧
    (report E G n m x minf params setup t s w1).world = w1 := by
  unfold report
  dsimp only
  rw [if_pos hi]
  by_cases hl : (E.GetCalculationsStatistics s).getD 0 0 ≥ params.itersLimit
  · rw [if_pos hl, if_pos hl]
    exact ⟨rfl, rfl, rfl, rfl⟩
  · rw [if_neg hl, if_neg hl]
    exact ⟨rfl, rfl, rfl, rfl⟩

theorem report_infeasible (E : NLPSolver S σ) (G : Globals) (n m : Nat) (x : Nat → Double)
    (minf : Double) (params : SolverParameters) (setup : List (SolverCall σ)) (t : Trial)
    (s : S) (w1 : σ) (hi : m ≠ t.idx) :
    (report E G n m x minf params setup t s w1).ret = .NLOPT_FAILURE ∧
    (report E G n m x minf params setup t s w1).x = x ∧
    (report E G n m x minf params setup t s w1).minf = minf ∧
    (report E G n m x minf params setup t s w1).world = w1 := by
  unfold report
  dsimp only
  rw [if_neg hi]
  exact ⟨rfl, rfl, rfl, rfl⟩

theorem countersRead_append (a b : List (SolverCall σ)) :
    countersRead (a ++ b) = countersRead a ++ countersRead b := by
  induction a with
  | nil => rfl
  | cons c cs ih => cases c <;> simp [countersRead, ih]

theorem report_feasible_calls (E : NLPSolver S σ) (G : Globals) (n m : Nat)
    (x : Nat → Double) (minf : Double) (params : SolverParameters)
    (setup : List (SolverCall σ)) (t : Trial) (s : S) (w1 : σ) (hi : m = t.idx) :
    (report E G n m x minf params setup t s w1).calls
      = setup ++ [.Solve (.ok t)] ++
        (if G.ags_verbose ≠ 0 then
          [.GetCalculationsStatistics (E.GetCalculationsStatistics s),
            .GetHolderConstantsEstimations (E.GetHolderConstantsEstimations s)]
        else []) ++ [.GetCalculationsStatistics (E.GetCalculationsStatistics s)] := by
  unfold report
  dsimp only
  rw [if_pos hi]
  by_cases hl : (E.GetCalculationsStatistics s).getD 0 0 ≥ params.itersLimit
  · rw [if_pos hl]
  · rw [if_neg hl]

theorem report_countersRead (E : NLPSolver S σ) (G : Globals) (n m : Nat) (x : Nat → Double)
    (minf : Double) (params : SolverParameters) (setup : List (SolverCall σ)) (t : Trial)
    (s : S) (w1 : σ) (hi : m = t.idx) (hsetup : countersRead setup = []) :
    E.GetCalculationsStatistics s
      ∈ countersRead (report E G n m x minf params setup t s w1).calls ∧
    ∀ c, c ∈ countersRead (report E G n m x minf params setup t s w1).calls →
      c = E.GetCalculationsStatistics s := by
  rw [report_feasible_calls E G n m x minf params setup t s w1 hi]
  by_cases hv : G.ags_verbose ≠ 0
  · rw [if_pos hv]
    simp [countersRead_append, countersRead, hsetup]
  · rw [if_neg hv]
    simp [countersRead_append, countersRead, hsetup]

theorem ags_minimize_solve_error (E : NLPSolver S σ) (G : Globals) (n : Nat)
    (func : nlopt_func Data σ) (data : Data) (m : Nat) (fc : Nat → nlopt_constraint Data σ)
    (x : Nat → Double) (minf : Double) (l u : Nat → Double) (stop : nlopt_stopping) (w : σ)
    (hv : PassesValidation E n m fc) (exp : String) (s : S) (w1 : σ)
    (hS : solveOutcome E G n func data m fc l u stop w = (.error exp, s, w1)) :
    ags_minimize E G n func data m fc x minf l u stop w
      = { ret := .NLOPT_FAILURE, x := x, minf := minf, world := w1,
          calls := [.SetParameters (solverParameters G stop),
            .SetProblem (wrappedCallbacks n func data m fc) (vectorOf l n) (vectorOf u n),
            .Solve (.error exp)],
          cerr := [Tok.str "AGS internal error: ", Tok.str exp, Tok.endl], cout := [] } := by
  rw [ags_minimize_of_valid E G n func data m fc x minf l u stop w hv]
  exact runSolver_error E G n m x minf stop w _ _ _ exp s w1 hS

theorem ags_minimize_solve_ok (E : NLPSolver S σ) (G : Globals) (n : Nat)
    (func : nlopt_func Data σ) (data : Data) (m : Nat) (fc : Nat → nlopt_constraint Data σ)
    (x : Nat → Double) (minf : Double) (l u : Nat → Double) (stop : nlopt_stopping) (w : σ)
    (hv : PassesValidation E n m fc) (t : Trial) (s : S) (w1 : σ)
    (hS : solveOutcome E G n func data m fc l u stop w = (.ok t, s, w1)) :
    ags_minimize E G n func data m fc x minf l u stop w
      = report E G n m x minf (solverParameters G stop)
          [.SetParameters (solverParameters G stop),
            .SetProblem (wrappedCallbacks n func data m fc) (vectorOf l n) (vectorOf u n)]
          t s w1 := by
  rw [ags_minimize_of_valid E G n func data m fc x minf l u stop w hv]
  exact runSolver_ok E G n m x minf stop w _ _ _ t s w1 hS

theorem ags_minimize_projections (E : NLPSolver S σ) (G : Globals) (n : Nat)
    (func : nlopt_func Data σ) (data : Data) (m : Nat) (fc : Nat → nlopt_constraint Data σ)
    (x : Nat → Double) (minf : Double) (l u : Nat → Double) (stop : nlopt_stopping) (w : σ)
    (hv : PassesValidation E n m fc) :
    parametersSet (ags_minimize E G n func data m fc x minf l u stop w).calls
      = [solverParameters G stop] ∧
    problemsSet (ags_minimize E G n func data m fc x minf l u stop w).calls
      = [(wrappedCallbacks n func data m fc, vectorOf l n, vectorOf u n)] ∧
    solveResults (ags_minimize E G n func data m fc x minf l u stop w).calls
      = [(solveOutcome E G n func data m fc l u stop w).1] := by
  rcases hS : solveOutcome E G n func data m fc l u stop w with ⟨res, s, w1⟩
  cases res with
  | error exp =>
    rw [ags_minimize_solve_error E G n func data m fc x minf l u stop w hv exp s w1 hS]
    simp [parametersSet, problemsSet, solveResults]
  | ok t =>
    rw [ags_minimize_solve_ok E G n func data m fc x minf l u stop w hv t s w1 hS]
    have h := report_projections E G n m x minf (solverParameters G stop)
      [.SetParameters (solverParameters G stop),
        .SetProblem (wrappedCallbacks n func data m fc) (vectorOf l n) (vectorOf u n)] t s w1
    simpa [parametersSet, problemsSet, solveResults] using h

theorem sum_eq_of_all_one (m : Nat) (fc : Nat → nlopt_constraint Data σ)
    (h : ∀ i, i < m → (fc i).m = 1) : (∑ i in Finset.range m, (fc i).m) = m := by
  rw [Finset.sum_congr rfl (fun i hi => h i (Finset.mem_range.mp hi))]
  simp

theorem nlopt_count_constraints_eq_sum (p : Nat) (c : Nat → nlopt_constraint Data σ) :
    nlopt_count_constraints p c = (∑ i in Finset.range p, (c i).m) % 2 ^ 32 := by
  unfold nlopt_count_constraints
  induction p with
  | zero => simp
  | succ k ih =>
    rw [List.range_succ, List.foldl_append, ih, Finset.sum_range_succ]
    simp [Nat.add_mod]

theorem nlopt_count_constraints_of_all_one (m : Nat) (fc : Nat → nlopt_constraint Data σ)
    (hm : m < 2 ^ 32) (h : ∀ i, i < m → (fc i).m = 1) : nlopt_count_constraints m fc = m := by
  rw [nlopt_count_constraints_eq_sum, sum_eq_of_all_one m fc h, Nat.mod_eq_of_lt hm]

theorem wrappedCallbacks_length (n : Nat) (func : nlopt_func Data σ) (data : Data) (m : Nat)
    (fc : Nat → nlopt_constraint Data σ) : (wrappedCallbacks n func data m fc).length = m + 1 := by
  simp [wrappedCallbacks]

theorem wrappedCallbacks_constraint (n : Nat) (func : nlopt_func Data σ) (data : Data) (m : Nat)
    (fc : Nat → nlopt_constraint Data σ) (i : Nat) (hi : i < m) :
    (wrappedCallbacks n func data m fc)[i]? = some (fun p => (fc i).f n p none data) := by
  unfold wrappedCallbacks
  rw [List.getElem?_append_left (by simpa using hi)]
  simp [List.getElem?_map, List.getElem?_range hi]

theorem wrappedCallbacks_objective (n : Nat) (func : nlopt_func Data σ) (data : Data) (m : Nat)
    (fc : Nat → nlopt_constraint Data σ) :
    (wrappedCallbacks n func data m fc)[m]? = some (fun p => func n p none data) := by
  unfold wrappedCallbacks
  rw [List.getElem?_append_right (by simp)]
  simp

theorem solveOutcome_congr (E : NLPSolver S σ) (G1 G2 : Globals) (n : Nat)
    (func : nlopt_func Data σ) (data : Data) (m : Nat) (fc : Nat → nlopt_constraint Data σ)
    (l u : Nat → Double) (stop : nlopt_stopping) (w : σ)
    (hp : solverParameters G1 stop = solverParameters G2 stop) :
    solveOutcome E G1 n func data m fc l u stop w
      = solveOutcome E G2 n func data m fc l u stop w := by
  unfold solveOutcome
  rw [hp]

end Lemmas

/-! ### Facts about the scenarios -/

theorem constrained_passes_validation :
    PassesValidation engine10 1 1 (fun _ => halfConstraint) :=
  ⟨by decide, by decide, by decide, fun _ _ => rfl⟩

theorem closed_passes_validation :
    PassesValidation engine10 1 1 (fun _ => closedConstraint) :=
  ⟨by decide, by decide, by decide, fun _ _ => rfl⟩

theorem constrainedRun_solved :
    ∃ t : Trial, solveResults (constrainedRun initialSettings).calls = [.ok t] ∧
      t.idx = 1 ∧ t.y 0 = 1 / 2 ∧ t.g 1 = 1 / 2 :=
  ⟨_, by with_unfolding_all rfl, by with_unfolding_all rfl, by with_unfolding_all rfl,
    by with_unfolding_all rfl⟩

theorem constrainedRun_outputs :
    (constrainedRun initialSettings).ret = .NLOPT_MAXEVAL_REACHED ∧
    (constrainedRun initialSettings).x 0 = 1 / 2 ∧
    (constrainedRun initialSettings).minf = 1 / 2 ∧
    (constrainedRun initialSettings).world = 5 ∧
    countersRead (constrainedRun initialSettings).calls = [[3, 2]] :=
  ⟨by with_unfolding_all rfl, by with_unfolding_all rfl, by with_unfolding_all rfl,
    by with_unfolding_all rfl, by with_unfolding_all rfl⟩

theorem infeasibleRun_outputs :
    infeasibleRun.ret = .NLOPT_FAILURE ∧ infeasibleRun.x 0 = 7 ∧ infeasibleRun.minf = 9 ∧
    infeasibleRun.world = 3 :=
  ⟨by with_unfolding_all rfl, by with_unfolding_all rfl, by with_unfolding_all rfl,
    by with_unfolding_all rfl⟩

/-! ## The claims -/

section Claims

variable {Data σ S : Type}

/-- C1: a call with `n` above `ags::solverMaxDim` returns the invalid-arguments
status whatever the other arguments are; no method of the solver is called (so
`Solve` never runs and no callback is invoked: the caller's world is the one
before the call), nothing is printed, and `x` and `*minf` are unchanged. -/
theorem ags_minimize_rejects_large_dimension (E : NLPSolver S σ) (G : Globals) (n : Nat)
    (func : nlopt_func Data σ) (data : Data) (m : Nat) (fc : Nat → nlopt_constraint Data σ)
    (x : Nat → Double) (minf : Double) (l u : Nat → Double) (stop : nlopt_stopping) (w : σ)
    (hn : n > E.solverMaxDim) :
    (ags_minimize E G n func data m fc x minf l u stop w).ret = .NLOPT_INVALID_ARGS ∧
    (ags_minimize E G n func data m fc x minf l u stop w).calls = [] ∧
    (ags_minimize E G n func data m fc x minf l u stop w).world = w ∧
    (ags_minimize E G n func data m fc x minf l u stop w).x = x ∧
    (ags_minimize E G n func data m fc x minf l u stop w).minf = minf := by
  unfold ags_minimize
  rw [if_pos hn]
  exact ⟨rfl, rfl, rfl, rfl, rfl⟩

/-- Witness for C1: dimension 11 against a maximum of 10, with callbacks that
count their invocations; the count stays 0 and the buffers keep 7 and 9. -/
theorem ags_minimize_rejects_large_dimension_witness :
    11 > engine10.solverMaxDim ∧
    (ags_minimize engine10 initialSettings 11 countedObjective () 1 (fun _ => halfConstraint)
        (fun _ => 7) 9 (fun _ => 0) (fun _ => 1) { maxeval := 3 } 0).ret
      = .NLOPT_INVALID_ARGS ∧
    (ags_minimize engine10 initialSettings 11 countedObjective () 1 (fun _ => halfConstraint)
        (fun _ => 7) 9 (fun _ => 0) (fun _ => 1) { maxeval := 3 } 0).world = 0 :=
  have h := ags_minimize_rejects_large_dimension engine10 initialSettings 11 countedObjective ()
    1 (fun _ => halfConstraint) (fun _ => 7) 9 (fun _ => 0) (fun _ => 1)
    { maxeval := 3 } 0 (by decide)
  ⟨by decide, h.1, h.2.2.1⟩

/-- C2: a call in which some descriptor `fc[i]`, `i < m`, does not declare
exactly one output, or the descriptors declare a total different from `m`
(as computed by `nlopt_count_constraints`, or as the plain sum of the
`fc[i].m`), or `m` exceeds `ags::solverMaxConstraints`, returns the
invalid-arguments status; no method of the solver is called (no callback runs,
the world is unchanged) and `x` and `*minf` are unchanged. -/
theorem ags_minimize_rejects_bad_constraints (E : NLPSolver S σ) (G : Globals) (n : Nat)
    (func : nlopt_func Data σ) (data : Data) (m : Nat) (fc : Nat → nlopt_constraint Data σ)
    (x : Nat → Double) (minf : Double) (l u : Nat → Double) (stop : nlopt_stopping) (w : σ)
    (h : (∃ i, i < m ∧ (fc i).m ≠ 1) ∨ nlopt_count_constraints m fc ≠ m ∨
      (∑ i in Finset.range m, (fc i).m) ≠ m ∨ m > E.solverMaxConstraints) :
    (ags_minimize E G n func data m fc x minf l u stop w).ret = .NLOPT_INVALID_ARGS ∧
    (ags_minimize E G n func data m fc x minf l u stop w).calls = [] ∧
    (ags_minimize E G n func data m fc x minf l u stop w).world = w ∧
    (ags_minimize E G n func data m fc x minf l u stop w).x = x ∧
    (ags_minimize E G n func data m fc x minf l u stop w).minf = minf := by
  have hinv : ¬ PassesValidation E n m fc := by
    rintro ⟨_, hc, hm, h1⟩
    rcases h with ⟨i, hi, hne⟩ | hne | hne | hgt
    · exact hne (h1 i hi)
    · exact hne hc.symm
    · exact hne (sum_eq_of_all_one m fc h1)
    · exact absurd hm (Nat.not_le.mpr hgt)
  rw [ags_minimize_of_invalid E G n func data m fc x minf l u stop w hinv]
  exact ⟨rfl, rfl, rfl, rfl, rfl⟩

/-- Witness for C2: one descriptor declaring two outputs, `m = 1`. -/
theorem ags_minimize_rejects_bad_constraints_witness :
    (0 < 1 ∧ pairConstraint.m ≠ 1) ∧
    (ags_minimize engine10 initialSettings 1 countedObjective () 1 (fun _ => pairConstraint)
        (fun _ => 7) 9 (fun _ => 0) (fun _ => 1) { maxeval := 3 } 0).ret
      = .NLOPT_INVALID_ARGS ∧
    (ags_minimize engine10 initialSettings 1 countedObjective () 1 (fun _ => pairConstraint)
        (fun _ => 7) 9 (fun _ => 0) (fun _ => 1) { maxeval := 3 } 0).world = 0 :=
  have h := ags_minimize_rejects_bad_constraints engine10 initialSettings 1 countedObjective ()
    1 (fun _ => pairConstraint) (fun _ => 7) 9 (fun _ => 0) (fun _ => 1)
    { maxeval := 3 } 0 (Or.inl ⟨0, by decide, by decide⟩)
  ⟨⟨by decide, by decide⟩, h.1, h.2.2.1⟩

/-- C3: when the call passes validation and `Solve` returns a best trial `t`
with `t.idx = m`, the call returns success or iteration-limit-reached, and on
return `x[i] = t.y[i]` for every `i < n` and `*minf = t.g[m]`. -/
theorem ags_minimize_feasible_output (E : NLPSolver S σ) (G : Globals) (n : Nat)
    (func : nlopt_func Data σ) (data : Data) (m : Nat) (fc : Nat → nlopt_constraint Data σ)
    (x : Nat → Double) (minf : Double) (l u : Nat → Double) (stop : nlopt_stopping) (w : σ)
    (hv : PassesValidation E n m fc) (t : Trial)
    (ht : Except.ok t ∈ solveResults (ags_minimize E G n func data m fc x minf l u stop w).calls)
    (hidx : t.idx = m) :
    ((ags_minimize E G n func data m fc x minf l u stop w).ret = .NLOPT_SUCCESS ∨
      (ags_minimize E G n func data m fc x minf l u stop w).ret = .NLOPT_MAXEVAL_REACHED) ∧
    (∀ i, i < n → (ags_minimize E G n func data m fc x minf l u stop w).x i = t.y i) ∧
    (ags_minimize E G n func data m fc x minf l u stop w).minf = t.g m := by
  have hp := (ags_minimize_projections E G n func data m fc x minf l u stop w hv).2.2
  rw [hp] at ht
  rcases hS : solveOutcome E G n func data m fc l u stop w with ⟨res, s, w1⟩
  rw [hS] at ht
  have hres : res = .ok t := by
    have h : Except.ok t = res := by simpa using ht
    exact h.symm
  subst hres
  rw [ags_minimize_solve_ok E G n func data m fc x minf l u stop w hv t s w1 hS]
  obtain ⟨hr, hx, hf, _⟩ := report_feasible E G n m x minf (solverParameters G stop)
    [.SetParameters (solverParameters G stop),
      .SetProblem (wrappedCallbacks n func data m fc) (vectorOf l n) (vectorOf u n)]
    t s w1 hidx.symm
  refine ⟨?_, ?_, ?_⟩
  · rw [hr]
    by_cases hl : (E.GetCalculationsStatistics s).getD 0 0 ≥ (solverParameters G stop).itersLimit
    · rw [if_pos hl]; exact Or.inr rfl
    · rw [if_neg hl]; exact Or.inl rfl
  · intro i hi
    rw [hx]
    simp [hi]
  · rw [hf, hidx]

/-- C4: whenever the call returns invalid-arguments or generic failure, `x`
and `*minf` hold exactly the values they had before the call. -/
theorem ags_minimize_failure_frame (E : NLPSolver S σ) (G : Globals) (n : Nat)
    (func : nlopt_func Data σ) (data : Data) (m : Nat) (fc : Nat → nlopt_constraint Data σ)
    (x : Nat → Double) (minf : Double) (l u : Nat → Double) (stop : nlopt_stopping) (w : σ)
    (hret : (ags_minimize E G n func data m fc x minf l u stop w).ret = .NLOPT_INVALID_ARGS ∨
      (ags_minimize E G n func data m fc x minf l u stop w).ret = .NLOPT_FAILURE) :
    (ags_minimize E G n func data m fc x minf l u stop w).x = x ∧
    (ags_minimize E G n func data m fc x minf l u stop w).minf = minf := by
  by_cases hv : PassesValidation E n m fc
  · rcases hS : solveOutcome E G n func data m fc l u stop w with ⟨res, s, w1⟩
    cases res with
    | error exp =>
      rw [ags_minimize_solve_error E G n func data m fc x minf l u stop w hv exp s w1 hS]
      exact ⟨rfl, rfl⟩
    | ok t =>
      rw [ags_minimize_solve_ok E G n func data m fc x minf l u stop w hv t s w1 hS] at hret ⊢
      by_cases hi : m = t.idx
      · exfalso
        have hr := (report_feasible E G n m x minf (solverParameters G stop)
          [.SetParameters (solverParameters G stop),
            .SetProblem (wrappedCallbacks n func data m fc) (vectorOf l n) (vectorOf u n)]
          t s w1 hi).1
        rw [hr] at hret
        by_cases hl : (E.GetCalculationsStatistics s).getD 0 0
            ≥ (solverParameters G stop).itersLimit
        · rw [if_pos hl] at hret; simp at hret
        · rw [if_neg hl] at hret; simp at hret
      · obtain ⟨_, hx, hf, _⟩ := report_infeasible E G n m x minf (solverParameters G stop)
          [.SetParameters (solverParameters G stop),
            .SetProblem (wrappedCallbacks n func data m fc) (vectorOf l n) (vectorOf u n)]
          t s w1 hi
        exact ⟨hx, hf⟩
  · rw [ags_minimize_of_invalid E G n func data m fc x minf l u stop w hv]
    exact ⟨rfl, rfl⟩

/-- C5: when the call passes validation, it returns generic failure if and
only if `Solve` raised a runtime error or returned a best trial whose `idx`
differs from `m`; and `Solve` is called exactly once. -/
theorem ags_minimize_failure_iff (E : NLPSolver S σ) (G : Globals) (n : Nat)
    (func : nlopt_func Data σ) (data : Data) (m : Nat) (fc : Nat → nlopt_constraint Data σ)
    (x : Nat → Double) (minf : Double) (l u : Nat → Double) (stop : nlopt_stopping) (w : σ)
    (hv : PassesValidation E n m fc) :
    ((ags_minimize E G n func data m fc x minf l u stop w).ret = .NLOPT_FAILURE ↔
      (∃ exp, Except.error exp ∈
          solveResults (ags_minimize E G n func data m fc x minf l u stop w).calls) ∨
      (∃ t, Except.ok t ∈
          solveResults (ags_minimize E G n func data m fc x minf l u stop w).calls ∧
        t.idx ≠ m)) ∧
    (solveResults (ags_minimize E G n func data m fc x minf l u stop w).calls).length = 1 := by
  have hp := (ags_minimize_projections E G n func data m fc x minf l u stop w hv).2.2
  refine ⟨?_, by rw [hp]; rfl⟩
  rw [hp]
  rcases hS : solveOutcome E G n func data m fc l u stop w with ⟨res, s, w1⟩
  cases res with
  | error exp =>
    rw [ags_minimize_solve_error E G n func data m fc x minf l u stop w hv exp s w1 hS]
    simp
  | ok t =>
    rw [ags_minimize_solve_ok E G n func data m fc x minf l u stop w hv t s w1 hS]
    by_cases hi : m = t.idx
    · have hr := (report_feasible E G n m x minf (solverParameters G stop)
        [.SetParameters (solverParameters G stop),
          .SetProblem (wrappedCallbacks n func data m fc) (vectorOf l n) (vectorOf u n)]
        t s w1 hi).1
      rw [hr]
      by_cases hl : (E.GetCalculationsStatistics s).getD 0 0
          ≥ (solverParameters G stop).itersLimit
      · rw [if_pos hl]; simp [hi]
      · rw [if_neg hl]; simp [hi]
    · have hr := (report_infeasible E G n m x minf (solverParameters G stop)
        [.SetParameters (solverParameters G stop),
          .SetProblem (wrappedCallbacks n func data m fc) (vectorOf l n) (vectorOf u n)]
        t s w1 hi).1
      rw [hr]
      have hne : t.idx ≠ m := fun h => hi h.symm
      simp [hne]

/-- C6, as amended: when the call passes validation and `Solve` returns a best
trial with `idx = m`, the statistics are read (line 82), and the call returns
iteration-limit-reached if and only if the counter of slot 0, the head of the
counters (the slot of the function evaluated first at every trial; it is the
objective slot only when `m = 0`), has reached `stop->maxeval`; otherwise it
returns success. -/
theorem ags_minimize_maxeval_iff_slot_zero (E : NLPSolver S σ) (G : Globals) (n : Nat)
    (func : nlopt_func Data σ) (data : Data) (m : Nat) (fc : Nat → nlopt_constraint Data σ)
    (x : Nat → Double) (minf : Double) (l u : Nat → Double) (stop : nlopt_stopping) (w : σ)
    (hv : PassesValidation E n m fc) (t : Trial)
    (ht : Except.ok t ∈ solveResults (ags_minimize E G n func data m fc x minf l u stop w).calls)
    (hidx : t.idx = m) :
    ∃ counters : List Nat,
      counters ∈ countersRead (ags_minimize E G n func data m fc x minf l u stop w).calls ∧
      (∀ c, c ∈ countersRead (ags_minimize E G n func data m fc x minf l u stop w).calls →
        c = counters) ∧
      ∀ c0 rest, counters = c0 :: rest →
        ((ags_minimize E G n func data m fc x minf l u stop w).ret = .NLOPT_MAXEVAL_REACHED ↔
          c0 ≥ stop.maxeval) ∧
        ((ags_minimize E G n func data m fc x minf l u stop w).ret = .NLOPT_SUCCESS ↔
          c0 < stop.maxeval) := by
  have hp := (ags_minimize_projections E G n func data m fc x minf l u stop w hv).2.2
  rw [hp] at ht
  rcases hS : solveOutcome E G n func data m fc l u stop w with ⟨res, s, w1⟩
  rw [hS] at ht
  have hres : res = .ok t := by
    have h : Except.ok t = res := by simpa using ht
    exact h.symm
  subst hres
  rw [ags_minimize_solve_ok E G n func data m fc x minf l u stop w hv t s w1 hS]
  have hr := (report_feasible E G n m x minf (solverParameters G stop)
    [.SetParameters (solverParameters G stop),
      .SetProblem (wrappedCallbacks n func data m fc) (vectorOf l n) (vectorOf u n)]
    t s w1 hidx.symm).1
  have hc := report_countersRead E G n m x minf (solverParameters G stop)
    [.SetParameters (solverParameters G stop),
      .SetProblem (wrappedCallbacks n func data m fc) (vectorOf l n) (vectorOf u n)]
    t s w1 hidx.symm rfl
  refine ⟨E.GetCalculationsStatistics s, hc.1, hc.2, ?_⟩
  intro c0 rest hcs
  rw [hr, hcs]
  have hlim : (solverParameters G stop).itersLimit = stop.maxeval := rfl
  rw [hlim]
  by_cases hl : c0 ≥ stop.maxeval
  · have hl' : (c0 :: rest).getD 0 0 ≥ stop.maxeval := by simpa using hl
    rw [if_pos hl']
    simp [hl]
  · have hl' : ¬ (c0 :: rest).getD 0 0 ≥ stop.maxeval := by simpa using hl
    rw [if_neg hl']
    simp only [ge_iff_le, not_le] at hl
    simp [hl]

/-- C7, as amended: when the call passes validation, `SetParameters` is
called once, with a configuration whose reliability parameter `r` is `ags_r`,
whose curve density `evolventDensity` is `evolvent_density`, whose reserve
parameter `epsR` is `eps_res`, whose iteration limit is `stop->maxeval`, and
whose target precision `eps` is the constant `1e-64`, whatever `eps_res` is. -/
theorem ags_minimize_parameters (E : NLPSolver S σ) (G : Globals) (n : Nat)
    (func : nlopt_func Data σ) (data : Data) (m : Nat) (fc : Nat → nlopt_constraint Data σ)
    (x : Nat → Double) (minf : Double) (l u : Nat → Double) (stop : nlopt_stopping) (w : σ)
    (hv : PassesValidation E n m fc) :
    ∃ p : SolverParameters,
      parametersSet (ags_minimize E G n func data m fc x minf l u stop w).calls = [p] ∧
      p.r = G.ags_r ∧ p.evolventDensity = G.evolvent_density ∧ p.epsR = G.eps_res ∧
      p.itersLimit = stop.maxeval ∧ p.eps = 1e-64 :=
  ⟨solverParameters G stop,
    (ags_minimize_projections E G n func data m fc x minf l u stop w hv).1,
    rfl, rfl, rfl, rfl, rfl⟩

/-- C8: two calls with the same arguments and the same settings apart from
`ags_verbose` return the same status and leave the same `x` and `*minf` (and
the same world): the toggle only changes what is printed. -/
theorem ags_minimize_verbose_side_channel (E : NLPSolver S σ) (G1 G2 : Globals) (n : Nat)
    (func : nlopt_func Data σ) (data : Data) (m : Nat) (fc : Nat → nlopt_constraint Data σ)
    (x : Nat → Double) (minf : Double) (l u : Nat → Double) (stop : nlopt_stopping) (w : σ)
    (hr : G1.ags_r = G2.ags_r) (he : G1.eps_res = G2.eps_res)
    (hd : G1.evolvent_density = G2.evolvent_density) :
    (ags_minimize E G1 n func data m fc x minf l u stop w).ret
      = (ags_minimize E G2 n func data m fc x minf l u stop w).ret ∧
    (ags_minimize E G1 n func data m fc x minf l u stop w).x
      = (ags_minimize E G2 n func data m fc x minf l u stop w).x ∧
    (ags_minimize E G1 n func data m fc x minf l u stop w).minf
      = (ags_minimize E G2 n func data m fc x minf l u stop w).minf ∧
    (ags_minimize E G1 n func data m fc x minf l u stop w).world
      = (ags_minimize E G2 n func data m fc x minf l u stop w).world := by
  have hp : solverParameters G1 stop = solverParameters G2 stop := by
    simp [solverParameters, hr, he, hd]
  by_cases hv : PassesValidation E n m fc
  · have hcongr := solveOutcome_congr E G1 G2 n func data m fc l u stop w hp
    rcases hS : solveOutcome E G2 n func data m fc l u stop w with ⟨res, s, w1⟩
    rw [hS] at hcongr
    cases res with
    | error exp =>
      rw [ags_minimize_solve_error E G1 n func data m fc x minf l u stop w hv exp s w1 hcongr,
        ags_minimize_solve_error E G2 n func data m fc x minf l u stop w hv exp s w1 hS]
      exact ⟨rfl, rfl, rfl, rfl⟩
    | ok t =>
      rw [ags_minimize_solve_ok E G1 n func data m fc x minf l u stop w hv t s w1 hcongr,
        ags_minimize_solve_ok E G2 n func data m fc x minf l u stop w hv t s w1 hS]
      by_cases hi : m = t.idx
      · obtain ⟨a1, a2, a3, a4⟩ := report_feasible E G1 n m x minf (solverParameters G1 stop)
          [.SetParameters (solverParameters G1 stop),
            .SetProblem (wrappedCallbacks n func data m fc) (vectorOf l n) (vectorOf u n)]
          t s w1 hi
        obtain ⟨b1, b2, b3, b4⟩ := report_feasible E G2 n m x minf (solverParameters G2 stop)
          [.SetParameters (solverParameters G2 stop),
            .SetProblem (wrappedCallbacks n func data m fc) (vectorOf l n) (vectorOf u n)]
          t s w1 hi
        rw [a1, a2, a3, a4, b1, b2, b3, b4, hp]
        exact ⟨rfl, rfl, rfl, rfl⟩
      · obtain ⟨a1, a2, a3, a4⟩ := report_infeasible E G1 n m x minf (solverParameters G1 stop)
          [.SetParameters (solverParameters G1 stop),
            .SetProblem (wrappedCallbacks n func data m fc) (vectorOf l n) (vectorOf u n)]
          t s w1 hi
        obtain ⟨b1, b2, b3, b4⟩ := report_infeasible E G2 n m x minf (solverParameters G2 stop)
          [.SetParameters (solverParameters G2 stop),
            .SetProblem (wrappedCallbacks n func data m fc) (vectorOf l n) (vectorOf u n)]
          t s w1 hi
        rw [a1, a2, a3, a4, b1, b2, b3, b4]
        exact ⟨rfl, rfl, rfl, rfl⟩
  · rw [ags_minimize_of_invalid E G1 n func data m fc x minf l u stop w hv,
      ags_minimize_of_invalid E G2 n func data m fc x minf l u stop w hv]
    exact ⟨rfl, rfl, rfl, rfl⟩

/-- C9: when the call passes validation, `SetProblem` is called once, with a
function list of length `m + 1` whose entry `i < m` is the wrapper
`p ↦ fc[i].f(n, p, NULL, data)` and whose entry `m` is the wrapper
`p ↦ func(n, p, NULL, data)`, and with the bound vectors made of the first
`n` entries of `l` and of `u`. -/
theorem ags_minimize_problem (E : NLPSolver S σ) (G : Globals) (n : Nat)
    (func : nlopt_func Data σ) (data : Data) (m : Nat) (fc : Nat → nlopt_constraint Data σ)
    (x : Nat → Double) (minf : Double) (l u : Nat → Double) (stop : nlopt_stopping) (w : σ)
    (hv : PassesValidation E n m fc) :
    ∃ (functions : List (FuncPtr σ)) (lb ub : List Double),
      problemsSet (ags_minimize E G n func data m fc x minf l u stop w).calls
        = [(functions, lb, ub)] ∧
      functions.length = m + 1 ∧
      (∀ i, i < m → functions[i]? = some (fun p => (fc i).f n p none data)) ∧
      functions[m]? = some (fun p => func n p none data) ∧
      lb = (List.range n).map l ∧ ub = (List.range n).map u :=
  ⟨wrappedCallbacks n func data m fc, vectorOf l n, vectorOf u n,
    (ags_minimize_projections E G n func data m fc x minf l u stop w hv).2.1,
    wrappedCallbacks_length n func data m fc,
    fun i hi => wrappedCallbacks_constraint n func data m fc i hi,
    wrappedCallbacks_objective n func data m fc, rfl, rfl⟩

/-- C10: with `nlopt_count_constraints(m, fc)` the sum of the `fc[i].m`,
`i < m`, the call returns invalid-arguments if and only if
`n > ags::solverMaxDim`, or `m > ags::solverMaxConstraints`, or that sum
differs from `m`, or `fc[i].m != 1` for some `i < m`; a request within both
bounds whose descriptors all declare one output passes the count check and
reaches `Solve`, which is called once.  (`m` is an `unsigned`.) -/
theorem ags_minimize_invalid_iff (E : NLPSolver S σ) (G : Globals) (n : Nat)
    (func : nlopt_func Data σ) (data : Data) (m : Nat) (fc : Nat → nlopt_constraint Data σ)
    (x : Nat → Double) (minf : Double) (l u : Nat → Double) (stop : nlopt_stopping) (w : σ)
    (hm : m < 2 ^ 32) :
    ((ags_minimize E G n func data m fc x minf l u stop w).ret = .NLOPT_INVALID_ARGS ↔
      n > E.solverMaxDim ∨ m > E.solverMaxConstraints ∨
      (∑ i in Finset.range m, (fc i).m) ≠ m ∨ ∃ i, i < m ∧ (fc i).m ≠ 1) ∧
    (n ≤ E.solverMaxDim → m ≤ E.solverMaxConstraints → (∀ i, i < m → (fc i).m = 1) →
      nlopt_count_constraints m fc = m ∧
      (solveResults (ags_minimize E G n func data m fc x minf l u stop w).calls).length
        = 1) := by
  have hvalid : (∀ i, i < m → (fc i).m = 1) → n ≤ E.solverMaxDim →
      m ≤ E.solverMaxConstraints → PassesValidation E n m fc := fun h1 hn hc =>
    ⟨hn, (nlopt_count_constraints_of_all_one m fc hm h1).symm, hc, h1⟩
  constructor
  · constructor
    · intro hret
      by_contra hcon
      simp only [not_or, not_exists, not_and, not_not, Nat.not_lt] at hcon
      obtain ⟨hn, hc, _, h1⟩ := hcon
      have hv := hvalid h1 hn hc
      rw [ags_minimize_of_valid E G n func data m fc x minf l u stop w hv] at hret
      exact runSolver_ret_ne_invalid E G n m x minf stop w _ _ _ hret
    · intro h
      have hinv : ¬ PassesValidation E n m fc := by
        rintro ⟨hn, _, hc, h1⟩
        rcases h with hgt | hgt | hne | ⟨i, hi, hne⟩
        · exact absurd hn (Nat.not_le.mpr hgt)
        · exact absurd hc (Nat.not_le.mpr hgt)
        · exact hne (sum_eq_of_all_one m fc h1)
        · exact hne (h1 i hi)
      rw [ags_minimize_of_invalid E G n func data m fc x minf l u stop w hinv]
      rfl
  · intro hn hc h1
    refine ⟨nlopt_count_constraints_of_all_one m fc hm h1, ?_⟩
    rw [(ags_minimize_projections E G n func data m fc x minf l u stop w
      (hvalid h1 hn hc)).2.2]
    rfl

end Claims

/-! ## The theorems at the scenarios -/

/-- Witness for C3: the constrained scenario.  The best trial is the centre of
the box, and the buffers receive its point and objective value. -/
theorem ags_minimize_feasible_output_witness :
    PassesValidation engine10 1 1 (fun _ => halfConstraint) ∧
    ∃ t : Trial, Except.ok t ∈ solveResults (constrainedRun initialSettings).calls ∧
      t.idx = 1 ∧ t.y 0 = 1 / 2 ∧ t.g 1 = 1 / 2 ∧
      ((constrainedRun initialSettings).ret = .NLOPT_SUCCESS ∨
        (constrainedRun initialSettings).ret = .NLOPT_MAXEVAL_REACHED) ∧
      (∀ i, i < 1 → (constrainedRun initialSettings).x i = t.y i) ∧
      (constrainedRun initialSettings).minf = t.g 1 := by
  obtain ⟨t, ht, hidx, hy, hg⟩ := constrainedRun_solved
  have hmem : Except.ok t ∈ solveResults (constrainedRun initialSettings).calls := by
    rw [ht]; simp
  exact ⟨constrained_passes_validation, t, hmem, hidx, hy, hg,
    ags_minimize_feasible_output engine10 initialSettings 1 countedObjective () 1
      (fun _ => halfConstraint) (fun _ => 7) 9 (fun _ => 0) (fun _ => 1) { maxeval := 3 } 0
      constrained_passes_validation t hmem hidx⟩

/-- Witness for C4: the infeasible scenario returns generic failure and the
buffers keep their contents. -/
theorem ags_minimize_failure_frame_witness :
    (infeasibleRun.ret = .NLOPT_INVALID_ARGS ∨ infeasibleRun.ret = .NLOPT_FAILURE) ∧
    infeasibleRun.x = (fun _ => 7) ∧ infeasibleRun.minf = 9 :=
  ⟨Or.inr infeasibleRun_outputs.1,
    ags_minimize_failure_frame engine10 initialSettings 1 countedObjective () 1
      (fun _ => closedConstraint) (fun _ => 7) 9 (fun _ => 0) (fun _ => 1) { maxeval := 3 } 0
      (Or.inr infeasibleRun_outputs.1)⟩

/-- Witness for C5: the infeasible scenario passes validation, runs `Solve`
once and returns generic failure. -/
theorem ags_minimize_failure_iff_witness :
    PassesValidation engine10 1 1 (fun _ => closedConstraint) ∧
    infeasibleRun.ret = .NLOPT_FAILURE ∧ (solveResults infeasibleRun.calls).length = 1 :=
  ⟨closed_passes_validation, infeasibleRun_outputs.1,
    (ags_minimize_failure_iff engine10 initialSettings 1 countedObjective () 1
      (fun _ => closedConstraint) (fun _ => 7) 9 (fun _ => 0) (fun _ => 1) { maxeval := 3 } 0
      closed_passes_validation).2⟩

/-- Counterexample to C6 as stated: in the constrained scenario (`m = 1`,
`stop->maxeval = 3`) the call passes validation, `Solve` returns a best trial
with `idx = m`, and the objective (slot `m`) has been evaluated only twice,
yet the call returns iteration-limit-reached; the counter that reached the
limit is the one of slot 0, the constraint. -/
theorem ags_minimize_maxeval_not_objective_slot :
    PassesValidation engine10 1 1 (fun _ => halfConstraint) ∧
    (∃ t : Trial, solveResults (constrainedRun initialSettings).calls = [.ok t] ∧ t.idx = 1) ∧
    countersRead (constrainedRun initialSettings).calls = [[3, 2]] ∧
    ¬ (([3, 2] : List Nat).getD 1 0 ≥ 3) ∧
    (constrainedRun initialSettings).ret = .NLOPT_MAXEVAL_REACHED :=
  ⟨constrained_passes_validation,
    constrainedRun_solved.elim fun t h => ⟨t, h.1, h.2.1⟩,
    constrainedRun_outputs.2.2.2.2, by decide, constrainedRun_outputs.1⟩

/-- Witness for C6 as amended: in the constrained scenario the counters read
are `[3, 2]`, and the status is iteration-limit-reached exactly because the
counter of slot 0 satisfies `3 >= 3`. -/
theorem ags_minimize_maxeval_iff_slot_zero_witness :
    PassesValidation engine10 1 1 (fun _ => halfConstraint) ∧
    (∃ t : Trial, Except.ok t ∈ solveResults (constrainedRun initialSettings).calls ∧
      t.idx = 1) ∧
    countersRead (constrainedRun initialSettings).calls = [[3, 2]] ∧
    ((constrainedRun initialSettings).ret = .NLOPT_MAXEVAL_REACHED ↔ 3 ≥ 3) ∧
    ((constrainedRun initialSettings).ret = .NLOPT_SUCCESS ↔ 3 < 3) := by
  obtain ⟨t, ht, hidx, _, _⟩ := constrainedRun_solved
  have hmem : Except.ok t ∈ solveResults (constrainedRun initialSettings).calls := by
    rw [ht]; simp
  obtain ⟨counters, hc, _, h⟩ :=
    ags_minimize_maxeval_iff_slot_zero engine10 initialSettings 1 countedObjective () 1
      (fun _ => halfConstraint) (fun _ => 7) 9 (fun _ => 0) (fun _ => 1) { maxeval := 3 } 0
      constrained_passes_validation t hmem hidx
  have hread := constrainedRun_outputs.2.2.2.2
  have hcs : counters = [3, 2] := by
    have hc1 : counters ∈ countersRead (constrainedRun initialSettings).calls := hc
    rw [hread] at hc1
    simpa using hc1
  exact ⟨constrained_passes_validation, ⟨t, hmem, hidx⟩, hread, h 3 [2] hcs⟩

/-- Counterexample to C7 as stated: under the initial settings
(`eps_res = 0.001`) the configuration handed to `SetParameters` in the
constrained scenario has `eps = 1e-64`, which is not `eps_res`. -/
theorem ags_minimize_eps_not_eps_res :
    PassesValidation engine10 1 1 (fun _ => halfConstraint) ∧
    ∃ p : SolverParameters,
      parametersSet (constrainedRun initialSettings).calls = [p] ∧
      p.eps = 1e-64 ∧ initialSettings.eps_res = 0.001 ∧ p.eps ≠ initialSettings.eps_res :=
  ⟨constrained_passes_validation, solverParameters initialSettings { maxeval := 3 },
    (ags_minimize_projections engine10 initialSettings 1 countedObjective () 1
      (fun _ => halfConstraint) (fun _ => 7) 9 (fun _ => 0) (fun _ => 1) { maxeval := 3 } 0
      constrained_passes_validation).1,
    rfl, rfl, by norm_num [solverParameters, initialSettings]⟩

/-- Witness for C7 as amended: the configuration of the constrained scenario
under the initial settings. -/
theorem ags_minimize_parameters_witness :
    PassesValidation engine10 1 1 (fun _ => halfConstraint) ∧
    ∃ p : SolverParameters,
      parametersSet (constrainedRun initialSettings).calls = [p] ∧
      p.r = initialSettings.ags_r ∧ p.evolventDensity = initialSettings.evolvent_density ∧
      p.epsR = initialSettings.eps_res ∧ p.itersLimit = 3 ∧ p.eps = 1e-64 :=
  ⟨constrained_passes_validation,
    ags_minimize_parameters engine10 initialSettings 1 countedObjective () 1
      (fun _ => halfConstraint) (fun _ => 7) 9 (fun _ => 0) (fun _ => 1) { maxeval := 3 } 0
      constrained_passes_validation⟩

/-- Witness for C8: the constrained scenario with `ags_verbose` 0 and 1. -/
theorem ags_minimize_verbose_side_channel_witness :
    (constrainedRun { ags_verbose := 0 }).ret = (constrainedRun { ags_verbose := 1 }).ret ∧
    (constrainedRun { ags_verbose := 0 }).x = (constrainedRun { ags_verbose := 1 }).x ∧
    (constrainedRun { ags_verbose := 0 }).minf = (constrainedRun { ags_verbose := 1 }).minf ∧
    (constrainedRun { ags_verbose := 0 }).world = (constrainedRun { ags_verbose := 1 }).world :=
  ags_minimize_verbose_side_channel engine10 { ags_verbose := 0 } { ags_verbose := 1 } 1
    countedObjective () 1 (fun _ => halfConstraint) (fun _ => 7) 9 (fun _ => 0) (fun _ => 1)
    { maxeval := 3 } 0 rfl rfl rfl

/-- Witness for C9: the problem of the constrained scenario. -/
theorem ags_minimize_problem_witness :
    PassesValidation engine10 1 1 (fun _ => halfConstraint) ∧
    ∃ (functions : List (FuncPtr Nat)) (lb ub : List Double),
      problemsSet (constrainedRun initialSettings).calls = [(functions, lb, ub)] ∧
      functions.length = 1 + 1 ∧
      (∀ i, i < 1 → functions[i]? = some (fun p => halfConstraint.f 1 p none ())) ∧
      functions[1]? = some (fun p => countedObjective 1 p none ()) ∧
      lb = (List.range 1).map (fun _ => 0) ∧ ub = (List.range 1).map (fun _ => 1) :=
  ⟨constrained_passes_validation,
    ags_minimize_problem engine10 initialSettings 1 countedObjective () 1
      (fun _ => halfConstraint) (fun _ => 7) 9 (fun _ => 0) (fun _ => 1) { maxeval := 3 } 0
      constrained_passes_validation⟩

/-- Witness for C10: the constrained scenario (`m = 1`) is within both bounds,
its descriptor declares one output, and the call is not rejected. -/
theorem ags_minimize_invalid_iff_witness :
    (1 : Nat) < 2 ^ 32 ∧
    (constrainedRun initialSettings).ret ≠ .NLOPT_INVALID_ARGS ∧
    (solveResults (constrainedRun initialSettings).calls).length = 1 := by
  have h := ags_minimize_invalid_iff engine10 initialSettings 1 countedObjective () 1
    (fun _ => halfConstraint) (fun _ => 7) 9 (fun _ => 0) (fun _ => 1) { maxeval := 3 } 0
    (by decide)
  refine ⟨by decide, ?_, (h.2 (by decide) (by decide) (fun _ _ => rfl)).2⟩
  intro hret
  rcases h.1.mp hret with hn | hc | hs | ⟨i, hi, hne⟩
  · exact absurd hn (by decide)
  · exact absurd hc (by decide)
  · exact hs (by decide)
  · exact hne rfl

end ags
